import Mathlib

/-!
Verification development for the Tracker repository (two near-duplicate
front-end files: `src/app.js` and the unnamed variant `src/unnamed/part_000`).

Shallow embedding conventions:
* Instants are `Int` milliseconds since the Unix epoch (UTC), exactly the
  value of `Date.now()` / `date.getTime()` in the source.
* The browser runs in a fixed-offset local timezone; `tz` is the local
  offset east of UTC in milliseconds.  JavaScript `Date` accessors such as
  `setHours`, `getDay`, `getDate` operate in the local frame (instant + tz),
  while `toISOString` uses UTC.  A fixed offset models any non-DST zone,
  in particular UTC itself (`tz = 0`).
* Event categories in the source are the four strings used by the category
  buttons; they are embedded as a closed enumeration.
* Event ids in the source are `Date.now().toString()`; decimal rendering of
  the clock value is injective, so ids are embedded by the numeric clock
  value itself: two events share an id exactly when they share a clock value.
-/

namespace Tracker

/-- The four event categories of the tracker (category buttons / filters). -/
inductive Category
  | beer
  | wine
  | liquor
  | smoking
deriving DecidableEq, Repr

/-- A logged event: `{ id, timestamp, category }` as built by `addEntry`. -/
structure Event where
  id : Int
  timestamp : Int
  category : Category
deriving DecidableEq, Repr

/-- Milliseconds in one day. -/
def dayMs : Int := 86400000

/-- Instant of local midnight of the local calendar day containing `t`;
this is `d.setHours(0, 0, 0, 0)` on a date holding instant `t`. -/
def dayFloor (tz t : Int) : Int := t - (t + tz) % dayMs

/-- Instant of local 23:59:59.999 of the local day containing `t`;
this is `d.setHours(23, 59, 59, 999)`. -/
def endOfDay (tz t : Int) : Int := dayFloor tz t + (dayMs - 1)

/-- UTC calendar-day number of an instant: the date part of
`d.toISOString()`, as a count of days since the epoch.  Two instants have
equal ISO date strings exactly when their `utcDay` values agree. -/
def utcDay (t : Int) : Int := t / dayMs

/-- Local calendar-day number of an instant (days since the epoch, in the
local frame); the day displayed by `getMonth()`/`getDate()`. -/
def localDay (tz t : Int) : Int := (t + tz) / dayMs

/-- Local day of week, `d.getDay()`: 0 = Sunday .. 6 = Saturday.
The epoch day (1970-01-01) was a Thursday, day-of-week 4. -/
def getDay (tz t : Int) : Int := (localDay tz t + 4) % 7

/-- Chart label of a bucket start, `formatChartLabel` in the source.  The
source renders the local month name and day of month; the label is embedded
as the local calendar-day number it displays. -/
def formatChartLabel (tz t : Int) : Int := localDay tz t

/-- Insertion step of the timestamp-ascending sort used by `updateChart`
(`[...entries].sort((a, b) => new Date(a.timestamp) - new Date(b.timestamp))`). -/
def insertByTs (e : Event) : List Event → List Event
  | [] => [e]
  | f :: rest =>
    if e.timestamp ≤ f.timestamp then e :: f :: rest else f :: insertByTs e rest

/-- Sort the entries by ascending timestamp (model of `Array.prototype.sort`
with the timestamp comparator; only the head of the result is consumed). -/
def sortByTs (entries : List Event) : List Event := entries.foldr insertByTs []

/-- The reporting window `[start, end]`; the `end` field of the source is
renamed `stop` (`end` is a Lean keyword). -/
structure Window where
  start : Int
  stop : Int
deriving DecidableEq, Repr

/-- Window computation inlined in `updateChart` of the part_000 variant
(lines 400-426), also repeated verbatim in `renderTableView` and
`renderOverview`; the spec names it `resolveWindow`.
With entries: start = local midnight of the earliest timestamp, end = the
earlier of start + (period - 1) days and end-of-day(now).  Without entries:
start = now - period days, end = end-of-day(now). -/
def resolveWindow (tz : Int) (entries : List Event) (period now : Int) : Window :=
  let endDate := endOfDay tz now
  match sortByTs entries with
  | [] => { start := now - period * dayMs, stop := endDate }
  | e :: _ =>
    let first := dayFloor tz e.timestamp
    let periodEnd := first + (period - 1) * dayMs
    { start := first, stop := if periodEnd < endDate then periodEnd else endDate }

/-- Window computation of `updateChart` in the app.js variant (lines
253-257): `endDate = new Date(); startDate = now - period days`.  The
entries are accepted for comparison with the claimed behavior but, as in
the source, play no part in the computation. -/
def resolveWindowApp (entries : List Event) (period now : Int) : Window :=
  { start := now - period * dayMs, stop := now }

/-- Filter the entries to the window, `startDate <= entryDate <= endDate`
(`updateChart`). -/
def filterWindow (w : Window) (entries : List Event) : List Event :=
  entries.filter fun e => w.start ≤ e.timestamp ∧ e.timestamp ≤ w.stop

/-- Count of entries of category `c`, `entries.filter(e => e.category === c).length`. -/
def countCat (c : Category) (entries : List Event) : Nat :=
  (entries.filter fun e => e.category = c).length

/-- One aggregated time slice: the label pushed to `data.labels` together
with the per-category counts pushed to the four parallel arrays at the same
index.  The parallel arrays of the source are transposed into a list of
per-index records. -/
structure Bucket where
  label : Int
  beer : Nat
  wine : Nat
  liquor : Nat
  smoking : Nat
deriving DecidableEq, Repr

/-- Loop body of `aggregateByDay`: the entries whose ISO (UTC) date equals
the ISO date of the bucket day, counted per category. -/
def dayBucket (tz : Int) (entries : List Event) (current : Int) : Bucket :=
  let dayEntries := entries.filter fun e => utcDay e.timestamp = utcDay current
  { label := formatChartLabel tz current
    beer := countCat .beer dayEntries
    wine := countCat .wine dayEntries
    liquor := countCat .liquor dayEntries
    smoking := countCat .smoking dayEntries }

/-- Loop body of `aggregateByWeek`: the entries with
`current <= entryDate <= weekEnd` where `weekEnd = current + 6 days`
(a local-midnight instant), counted per category. -/
def weekBucket (tz : Int) (entries : List Event) (current : Int) : Bucket :=
  let weekEnd := current + 6 * dayMs
  let weekEntries := entries.filter fun e => current ≤ e.timestamp ∧ e.timestamp ≤ weekEnd
  { label := formatChartLabel tz current
    beer := countCat .beer weekEntries
    wine := countCat .wine weekEntries
    liquor := countCat .liquor weekEntries
    smoking := countCat .smoking weekEntries }

/-- Number of iterations of a `while (current <= stop) { ...; current += d }`
loop (`d > 0`): one per multiple of `d` in `[current, stop]`. -/
def numSteps (d stop current : Int) : Nat :=
  if current ≤ stop then ((stop - current) / d).toNat + 1 else 0

/-- The values pushed by a step-`d` loop running `n` iterations from
`current`: `f current, f (current + d), ...`. -/
def loopFrom {α : Type} (d : Int) (f : Int → α) : Nat → Int → List α
  | 0, _ => []
  | n + 1, current => f current :: loopFrom d f n (current + d)

/-- `aggregateByDay(entries, startDate, endDate)`: one bucket per local
calendar day, starting at local midnight of `startDate` and stepping one
day while `current <= endDate`. -/
def aggregateByDay (tz : Int) (entries : List Event) (startDate stop : Int) : List Bucket :=
  let m := dayFloor tz startDate
  loopFrom dayMs (dayBucket tz entries) (numSteps dayMs stop m) m

/-- First week-bucket start of `aggregateByWeek`: local midnight of
`startDate`, moved back to the local Sunday on or before it
(`current.setDate(current.getDate() - dayOfWeek)`). -/
def weekAnchor (tz startDate : Int) : Int :=
  dayFloor tz startDate - getDay tz (dayFloor tz startDate) * dayMs

/-- `aggregateByWeek(entries, startDate, endDate)`: buckets start at the
local Sunday on or before `startDate` and step 7 days while
`current <= endDate`. -/
def aggregateByWeek (tz : Int) (entries : List Event) (startDate stop : Int) : List Bucket :=
  loopFrom (7 * dayMs) (weekBucket tz entries)
    (numSteps (7 * dayMs) stop (weekAnchor tz startDate)) (weekAnchor tz startDate)

/-- Per-category counts of `renderSummaryStats` (both variants compute the
same four `stats` fields). -/
structure Stats where
  beer : Nat
  wine : Nat
  liquor : Nat
  smoking : Nat
deriving DecidableEq, Repr

/-- The `stats` object of `renderSummaryStats`. -/
def summaryStats (entries : List Event) : Stats :=
  { beer := countCat .beer entries
    wine := countCat .wine entries
    liquor := countCat .liquor entries
    smoking := countCat .smoking entries }

/-- Grand total of `renderSummaryStats` in the app.js variant (line 442):
`stats.beer + stats.wine + stats.wine + stats.liquor + stats.smoking`. -/
def renderSummaryTotalApp (entries : List Event) : Nat :=
  let stats := summaryStats entries
  stats.beer + stats.wine + stats.wine + stats.liquor + stats.smoking

/-- Grand total of `renderSummaryStats` in the part_000 variant (line 614):
`stats.beer + stats.wine + stats.liquor + stats.smoking`. -/
def renderSummaryTotal (entries : List Event) : Nat :=
  let stats := summaryStats entries
  stats.beer + stats.wine + stats.liquor + stats.smoking

/-- The in-memory snapshot `currentData = { entries, sha }`: the event list
plus the opaque revision token of the last remote read/write (`null` until
one happened).  The token is embedded as an opaque integer. -/
structure StoreState where
  entries : List Event
  sha : Option Int
deriving DecidableEq, Repr

/-- The `type` argument of `showStatus(message, type)`: the kind of the
transient status notification reported to the user. -/
inductive StatusKind
  | info
  | success
  | error
deriving DecidableEq, Repr

/-- `saveData` in local mode (part_000 lines 249-252 and `saveDataLocal`):
store the new entries, keep the token, report success (`Saved locally`). -/
def saveDataLocal (st : StoreState) (entries : List Event) : StoreState × StatusKind :=
  ({ st with entries := entries }, .success)

/-- `saveData` in remote mode (part_000 lines 255-280, app.js 139-166): the
PUT outcome is passed in as data.  On success `currentData` becomes the new
entries with the returned revision; on any thrown error (conflict from a
stale revision included) the catch block only reports the error and
`currentData` is not assigned. -/
def saveDataRemote (st : StoreState) (entries : List Event)
    (putResult : Except String Int) : StoreState × StatusKind :=
  match putResult with
  | .ok newSha => ({ entries := entries, sha := some newSha }, .success)
  | .error _ => (st, .error)

/-- The entry object built by `addEntry(category)`:
`{ id: Date.now().toString(), timestamp: new Date().toISOString(), category }`.
Both id and timestamp derive from the same wall-clock reading (ids embedded
by the clock value, see the header note). -/
def mkEntry (clock : Int) (c : Category) : Event :=
  { id := clock, timestamp := clock, category := c }

/-- `addEntry`: append the new entry (`[...currentData.entries, entry]`). -/
def addEntry (clock : Int) (c : Category) (entries : List Event) : List Event :=
  entries ++ [mkEntry clock c]

/-- A sequence of add operations, each with its wall-clock reading, starting
from the empty store. -/
def addEntries (ops : List (Int × Category)) : List Event :=
  ops.foldl (fun acc p => addEntry p.1 p.2 acc) []

/-- `deleteEntry(id)` (after the confirmation dialog), in local mode: save
`entries.filter(e => e.id !== id)`. -/
def deleteEntry (st : StoreState) (idv : Int) : StoreState × StatusKind :=
  saveDataLocal st (st.entries.filter fun e => e.id ≠ idv)

/-- One row of the table view: a calendar day together with its per-category
counts and day total (`dailyData` entries of `renderTableView`). -/
structure DayRow where
  date : Int
  beer : Nat
  wine : Nat
  liquor : Nat
  smoking : Nat
  total : Nat
deriving DecidableEq, Repr

/-- Loop body of `renderTableView`: per-category counts of the entries whose
ISO (UTC) date matches the day, and their total. -/
def dayRow (entries : List Event) (current : Int) : DayRow :=
  let dayEntries := entries.filter fun e => utcDay e.timestamp = utcDay current
  let beer := countCat .beer dayEntries
  let wine := countCat .wine dayEntries
  let liquor := countCat .liquor dayEntries
  let smoking := countCat .smoking dayEntries
  { date := current, beer := beer, wine := wine, liquor := liquor,
    smoking := smoking, total := beer + wine + liquor + smoking }

/-- The `dailyData` accumulation loop of `renderTableView`: one candidate
row per calendar day, pushed only when its total is positive. -/
def tableLoop (entries : List Event) : Nat → Int → List DayRow
  | 0, _ => []
  | n + 1, current =>
    if 0 < (dayRow entries current).total then
      dayRow entries current :: tableLoop entries n (current + dayMs)
    else
      tableLoop entries n (current + dayMs)

/-- `renderTableView` (part_000 lines 648-736): resolve the window with the
same inline logic as `updateChart`, filter, build the per-day rows day by
day, then `dailyData.reverse()` before rendering. -/
def renderTableRows (tz : Int) (entries : List Event) (period now : Int) : List DayRow :=
  let w := resolveWindow tz entries period now
  let filtered := filterWindow w entries
  let m := dayFloor tz w.start
  (tableLoop filtered (numSteps dayMs w.stop m) m).reverse

/-! ### Helper lemmas -/

theorem loopFrom_eq_map {α : Type} (d : Int) (f : Int → α) (n : Nat) (current : Int) :
    loopFrom d f n current = (List.range n).map fun k : Nat => f (current + (k : Int) * d) := by
  induction n generalizing current with
  | zero => simp [loopFrom]
  | succ n ih =>
    rw [loopFrom, ih, List.range_succ_eq_map, List.map_cons, List.map_map]
    refine congrArg₂ List.cons (by norm_num) (List.map_congr_left ?_)
    intro k _
    simp only [Function.comp_apply]
    congr 1
    push_cast
    ring

theorem ediv_bounds {a d : Int} (ha : 0 ≤ a) (hd : 0 < d) :
    0 ≤ a / d ∧ (a / d) * d ≤ a ∧ a < (a / d + 1) * d := by
  have heq : d * (a / d) + a % d = a := Int.ediv_add_emod a d
  have hr0 : 0 ≤ a % d := Int.emod_nonneg a (by omega)
  have hrd : a % d < d := Int.emod_lt_of_pos a hd
  have hq0 : 0 ≤ a / d := Int.ediv_nonneg ha hd.le
  refine ⟨hq0, ?_, ?_⟩
  · nlinarith [heq, hr0]
  · nlinarith [heq, hrd]

theorem numSteps_le {d stop current : Int} (hd : 0 < d) :
    ∀ k : Nat, k < numSteps d stop current → current + k * d ≤ stop := by
  intro k hk
  unfold numSteps at hk
  split at hk
  case isTrue h =>
    obtain ⟨hq0, hmul, -⟩ := ediv_bounds (a := stop - current) (by omega) hd
    have hq : (k : Int) ≤ (stop - current) / d := by
      have : (k : Int) ≤ (((stop - current) / d).toNat : Int) := by
        exact_mod_cast Nat.lt_succ_iff.mp hk
      rwa [Int.toNat_of_nonneg hq0] at this
    have h2 : (k : Int) * d ≤ ((stop - current) / d) * d :=
      mul_le_mul_of_nonneg_right hq hd.le
    linarith
  case isFalse h => omega

theorem numSteps_gt {d stop current : Int} (hd : 0 < d) :
    stop < current + (numSteps d stop current) * d := by
  unfold numSteps
  split
  case isTrue h =>
    obtain ⟨hq0, -, hlt⟩ := ediv_bounds (a := stop - current) (by omega) hd
    have : ((((stop - current) / d).toNat + 1 : Nat) : Int) = (stop - current) / d + 1 := by
      push_cast
      rw [Int.toNat_of_nonneg hq0]
    rw [this]
    linarith
  case isFalse h => omega

theorem mem_insertByTs {a e : Event} {l : List Event} :
    a ∈ insertByTs e l ↔ a = e ∨ a ∈ l := by
  induction l with
  | nil => simp [insertByTs]
  | cons f rest ih =>
    simp only [insertByTs]
    split
    · simp [List.mem_cons]
    · simp only [List.mem_cons, ih]
      tauto

theorem mem_sortByTs {a : Event} {l : List Event} : a ∈ sortByTs l ↔ a ∈ l := by
  induction l with
  | nil => simp [sortByTs]
  | cons f rest ih =>
    simp only [sortByTs, List.foldr_cons] at ih ⊢
    rw [mem_insertByTs, ih, List.mem_cons]

theorem sortByTs_nil_iff {l : List Event} : sortByTs l = [] ↔ l = [] := by
  induction l with
  | nil => simp [sortByTs]
  | cons f rest ih =>
    simp only [sortByTs, List.foldr_cons]
    constructor
    · intro h
      exfalso
      have : f ∈ insertByTs f (List.foldr insertByTs [] rest) := mem_insertByTs.mpr (Or.inl rfl)
      rw [h] at this
      exact (List.not_mem_nil f) this
    · intro h
      exact absurd h (List.cons_ne_nil f rest)

theorem sortByTs_head_min {l : List Event} {e : Event} {rest : List Event}
    (h : sortByTs l = e :: rest) : ∀ a ∈ l, e.timestamp ≤ a.timestamp := by
  induction l generalizing e rest with
  | nil => simp [sortByTs] at h
  | cons f l ih =>
    simp only [sortByTs, List.foldr_cons] at h
    cases hs : List.foldr insertByTs [] l with
    | nil =>
      rw [hs] at h
      simp only [insertByTs] at h
      obtain ⟨he, -⟩ := List.cons.inj h
      have hl : l = [] := sortByTs_nil_iff.mp hs
      subst he hl
      simp
    | cons g grest =>
      rw [hs] at h
      have hg : ∀ a ∈ l, g.timestamp ≤ a.timestamp := ih hs
      simp only [insertByTs] at h
      split at h
      case isTrue hle =>
        obtain ⟨he, -⟩ := List.cons.inj h
        subst he
        intro a ha
        rcases List.mem_cons.mp ha with rfl | ha
        · exact le_refl _
        · exact le_trans hle (hg a ha)
      case isFalse hle =>
        obtain ⟨he, -⟩ := List.cons.inj h
        subst he
        intro a ha
        rcases List.mem_cons.mp ha with rfl | ha
        · omega
        · exact hg a ha

theorem sortByTs_head_mem {l : List Event} {e : Event} {rest : List Event}
    (h : sortByTs l = e :: rest) : e ∈ l := by
  have : e ∈ sortByTs l := by
    rw [h]
    exact List.mem_cons_self _ _
  exact mem_sortByTs.mp this

theorem addEntries_eq_map (ops : List (Int × Category)) :
    addEntries ops = ops.map fun p => mkEntry p.1 p.2 := by
  suffices h : ∀ acc : List Event,
      ops.foldl (fun acc p => addEntry p.1 p.2 acc) acc
        = acc ++ ops.map fun p => mkEntry p.1 p.2 by
    simpa [addEntries] using h []
  induction ops with
  | nil => intro acc; simp
  | cons p rest ih =>
    intro acc
    rw [List.foldl_cons, ih]
    simp [addEntry, List.append_assoc]

theorem tableLoop_date_lb (entries : List Event) :
    ∀ (n : Nat) (current : Int), ∀ r ∈ tableLoop entries n current, current ≤ r.date := by
  intro n
  induction n with
  | zero =>
    intro current r hr
    simp [tableLoop] at hr
  | succ n ih =>
    intro current r hr
    have hday : (0 : Int) < dayMs := by norm_num [dayMs]
    simp only [tableLoop] at hr
    split at hr
    · rcases List.mem_cons.mp hr with rfl | hr
      · simp [dayRow]
      · have := ih (current + dayMs) r hr
        omega
    · have := ih (current + dayMs) r hr
      omega

theorem tableLoop_sorted (entries : List Event) :
    ∀ (n : Nat) (current : Int),
      (tableLoop entries n current).Pairwise fun a b => a.date < b.date := by
  intro n
  induction n with
  | zero =>
    intro current
    simp [tableLoop]
  | succ n ih =>
    intro current
    have hday : (0 : Int) < dayMs := by norm_num [dayMs]
    simp only [tableLoop]
    split
    · refine List.Pairwise.cons ?_ (ih (current + dayMs))
      intro r hr
      have := tableLoop_date_lb entries n (current + dayMs) r hr
      simp only [dayRow]
      omega
    · exact ih (current + dayMs)

theorem tableLoop_total_pos (entries : List Event) :
    ∀ (n : Nat) (current : Int), ∀ r ∈ tableLoop entries n current, 0 < r.total := by
  intro n
  induction n with
  | zero =>
    intro current r hr
    simp [tableLoop] at hr
  | succ n ih =>
    intro current r hr
    simp only [tableLoop] at hr
    split at hr
    · rcases List.mem_cons.mp hr with rfl | hr
      · assumption
      · exact ih (current + dayMs) r hr
    · exact ih (current + dayMs) r hr

/-! ### Claim theorems -/

/-- C1: the grand total reported by the summary statistics should equal the
simple sum of the four per-category counts.  The part_000 variant computes
exactly that sum, but the app.js variant (line 442) adds `stats.wine`
twice: for a single wine event it reports a grand total of 2 while the sum
of the four per-category counts is 1.  This evaluates both variants at that
failing input. -/
theorem grandTotalApp_double_counts_wine :
    renderSummaryTotalApp [{ id := 1, timestamp := 0, category := Category.wine }] = 2 ∧
    renderSummaryTotal [{ id := 1, timestamp := 0, category := Category.wine }] = 1 ∧
    (summaryStats [{ id := 1, timestamp := 0, category := Category.wine }]).beer
      + (summaryStats [{ id := 1, timestamp := 0, category := Category.wine }]).wine
      + (summaryStats [{ id := 1, timestamp := 0, category := Category.wine }]).liquor
      + (summaryStats [{ id := 1, timestamp := 0, category := Category.wine }]).smoking = 1 := by
  decide

/-- C9: when a save attempt fails (the remote PUT throws, including a
stale-revision conflict), the catch block only reports an error: the
in-memory entries and the revision token are left exactly as they were. -/
theorem saveData_failure_preserves_state (st : StoreState) (entries : List Event)
    (msg : String) :
    saveDataRemote st entries (Except.error msg) = (st, StatusKind.error) := rfl

/-- C8 (amended): deleting an id absent from the store filters away nothing
and runs the ordinary save path: the stored entries (hence their count) are
unchanged, and the reported outcome is the ordinary save success
notification, not a ValidationFailure-class report. -/
theorem deleteEntry_missing_id (st : StoreState) (idv : Int)
    (h : ∀ e ∈ st.entries, e.id ≠ idv) :
    deleteEntry st idv = (st, StatusKind.success) := by
  unfold deleteEntry saveDataLocal
  have hf : (st.entries.filter fun e => e.id ≠ idv) = st.entries := by
    rw [List.filter_eq_self]
    intro a ha
    simpa using h a ha
  rw [hf]

/-- Witness for the C8 theorem at a concrete store and absent id. -/
theorem deleteEntry_missing_id_witness :
    (∀ e ∈ (StoreState.mk [{ id := 5, timestamp := 1000, category := Category.liquor }]
        none).entries, e.id ≠ 99) ∧
    deleteEntry
        (StoreState.mk [{ id := 5, timestamp := 1000, category := Category.liquor }] none) 99
      = (StoreState.mk [{ id := 5, timestamp := 1000, category := Category.liquor }] none,
          StatusKind.success) :=
  ⟨by decide, deleteEntry_missing_id _ _ (by decide)⟩

/-- C8 counterexample to the claim as stated: deleting a non-existent id
reports the ordinary save success notification, not a
ValidationFailure-class outcome (the failure kind used by `showStatus` is
`error`, which this path never produces). -/
theorem deleteEntry_missing_id_no_failure_report :
    (deleteEntry
        (StoreState.mk [{ id := 1, timestamp := 0, category := Category.beer }] none) 42).2
      = StatusKind.success ∧
    StatusKind.success ≠ StatusKind.error ∧
    ((deleteEntry
        (StoreState.mk [{ id := 1, timestamp := 0, category := Category.beer }] none) 42).1).entries.length
      = 1 := by
  decide

/-- C7 (amended): ids are the stringified wall-clock readings, so a run of
add operations yields pairwise distinct stored ids exactly when the clock
readings are pairwise distinct; the claim holds under that hypothesis. -/
theorem addEntries_unique_ids (ops : List (Int × Category))
    (h : (ops.map Prod.fst).Pairwise (· ≠ ·)) :
    ((addEntries ops).map Event.id).Pairwise (· ≠ ·) := by
  rw [addEntries_eq_map, List.map_map]
  have hc : (Event.id ∘ fun p : Int × Category => mkEntry p.1 p.2) = Prod.fst := by
    funext p
    rfl
  rwa [hc]

/-- Witness for the C7 theorem: two adds at distinct clock readings. -/
theorem addEntries_unique_ids_witness :
    (([(0, Category.beer), (1, Category.wine)].map Prod.fst).Pairwise (· ≠ ·)) ∧
    ((addEntries [(0, Category.beer), (1, Category.wine)]).map Event.id).Pairwise (· ≠ ·) :=
  ⟨by decide, addEntries_unique_ids _ (by decide)⟩

/-- C7 counterexample to the claim as stated: two add operations in the same
wall-clock millisecond assign the same id, so the stored ids are not
pairwise distinct. -/
theorem addEntries_same_clock_shares_id :
    ¬ ((addEntries [(0, Category.beer), (0, Category.wine)]).map Event.id).Pairwise (· ≠ ·) := by
  decide

/-- C10: the table view rows — one per calendar day having at least one
event — are emitted in reverse chronological order (strictly descending
dates, most recent qualifying day first), and every emitted row has a
positive day total. -/
theorem renderTableRows_newest_first (tz : Int) (entries : List Event) (period now : Int) :
    (renderTableRows tz entries period now).Pairwise (fun a b => b.date < a.date) ∧
    ∀ r ∈ renderTableRows tz entries period now, 0 < r.total := by
  unfold renderTableRows
  constructor
  · rw [List.pairwise_reverse]
    exact tableLoop_sorted _ _ _
  · intro r hr
    rw [List.mem_reverse] at hr
    exact tableLoop_total_pos _ _ _ r hr

/-- C2 (amended): in the part_000 variant — the one whose window logic the
spec describes — a non-empty event set makes the resolved window start at
the day-floor (local midnight) of the earliest timestamp: the start is a
day-floor of some event and is at most the day-floor of every event, for
every period and every now.  The app.js variant has no such anchoring (see
the counterexample). -/
theorem resolveWindow_start_eq_dayFloor_earliest (tz : Int) (entries : List Event)
    (period now : Int) (h : entries ≠ []) :
    (∃ e ∈ entries, (resolveWindow tz entries period now).start = dayFloor tz e.timestamp) ∧
    ∀ e ∈ entries, (resolveWindow tz entries period now).start ≤ dayFloor tz e.timestamp := by
  unfold resolveWindow
  cases hs : sortByTs entries with
  | nil => exact absurd (sortByTs_nil_iff.mp hs) h
  | cons e rest =>
    constructor
    · exact ⟨e, sortByTs_head_mem hs, rfl⟩
    · intro a ha
      have hts := sortByTs_head_min hs a ha
      show dayFloor tz e.timestamp ≤ dayFloor tz a.timestamp
      unfold dayFloor dayMs
      omega

/-- Witness for the C2 theorem at a concrete non-empty event list. -/
theorem resolveWindow_start_eq_dayFloor_earliest_witness :
    ([{ id := 1, timestamp := 90000000, category := Category.beer }] : List Event) ≠ [] ∧
    ((∃ e ∈ ([{ id := 1, timestamp := 90000000, category := Category.beer }] : List Event),
        (resolveWindow 0 [{ id := 1, timestamp := 90000000, category := Category.beer }]
          7 172800000).start = dayFloor 0 e.timestamp) ∧
      ∀ e ∈ ([{ id := 1, timestamp := 90000000, category := Category.beer }] : List Event),
        (resolveWindow 0 [{ id := 1, timestamp := 90000000, category := Category.beer }]
          7 172800000).start ≤ dayFloor 0 e.timestamp) :=
  ⟨by decide,
    resolveWindow_start_eq_dayFloor_earliest 0
      [{ id := 1, timestamp := 90000000, category := Category.beer }] 7 172800000 (by decide)⟩

/-- C2 counterexample to the claim as stated: the app.js variant of
`updateChart` computes the window from `now` alone (`start = now - period`
days); with a single event at the epoch, period 7 and now = 30 days, the
resolved start is day 23, not the day-floor of the earliest (and only)
event. -/
theorem resolveWindowApp_start_ignores_earliest :
    (resolveWindowApp [{ id := 1, timestamp := 0, category := Category.beer }]
        7 2592000000).start
      ≠ dayFloor 0 ({ id := 1, timestamp := 0, category := Category.beer } : Event).timestamp := by
  decide

/-- C3 (amended): the resolved window satisfies `start <= end` for every
enumerated period provided no event lies on a local calendar day after the
current one (true of every event created by `addEntry`, whose timestamps
are past clock readings); the app.js variant satisfies it unconditionally.
A future-dated event violates the invariant in the part_000 variant (see
the counterexample). -/
theorem resolveWindow_start_le_stop (tz : Int) (entries : List Event) (period now : Int)
    (hp : period = 7 ∨ period = 30 ∨ period = 90 ∨ period = 365)
    (hfut : ∀ e ∈ entries, dayFloor tz e.timestamp ≤ endOfDay tz now) :
    (resolveWindow tz entries period now).start ≤ (resolveWindow tz entries period now).stop ∧
    (resolveWindowApp entries period now).start ≤ (resolveWindowApp entries period now).stop := by
  constructor
  · unfold resolveWindow
    cases hs : sortByTs entries with
    | nil =>
      show now - period * dayMs ≤ endOfDay tz now
      unfold endOfDay dayFloor
      simp only [dayMs]
      rcases hp with rfl | rfl | rfl | rfl <;> omega
    | cons e rest =>
      have hb := hfut e (sortByTs_head_mem hs)
      show dayFloor tz e.timestamp ≤
        if dayFloor tz e.timestamp + (period - 1) * dayMs < endOfDay tz now
        then dayFloor tz e.timestamp + (period - 1) * dayMs
        else endOfDay tz now
      split
      · simp only [dayMs]
        rcases hp with rfl | rfl | rfl | rfl <;> omega
      · exact hb
  · unfold resolveWindowApp
    simp only [dayMs]
    rcases hp with rfl | rfl | rfl | rfl <;> omega

/-- Witness for the C3 theorem at a concrete input. -/
theorem resolveWindow_start_le_stop_witness :
    ((7 : Int) = 7 ∨ (7 : Int) = 30 ∨ (7 : Int) = 90 ∨ (7 : Int) = 365) ∧
    (∀ e ∈ ([{ id := 2, timestamp := 1000, category := Category.wine }] : List Event),
      dayFloor 0 e.timestamp ≤ endOfDay 0 86400000) ∧
    ((resolveWindow 0 [{ id := 2, timestamp := 1000, category := Category.wine }]
          7 86400000).start
        ≤ (resolveWindow 0 [{ id := 2, timestamp := 1000, category := Category.wine }]
          7 86400000).stop ∧
      (resolveWindowApp [{ id := 2, timestamp := 1000, category := Category.wine }]
          7 86400000).start
        ≤ (resolveWindowApp [{ id := 2, timestamp := 1000, category := Category.wine }]
          7 86400000).stop) :=
  ⟨by decide, by decide,
    resolveWindow_start_le_stop 0 [{ id := 2, timestamp := 1000, category := Category.wine }]
      7 86400000 (by decide) (by decide)⟩

/-- C3 counterexample to the claim as stated: with a single event dated ten
days after `now` (possible for bulk-loaded data, since the window is
computed from arbitrary stored timestamps), period 7 and now at the epoch,
the part_000 variant resolves start = day 10 but end = end-of-day 0, so
`start <= end` fails. -/
theorem resolveWindow_future_event_start_gt_stop :
    ¬ ((resolveWindow 0 [{ id := 1, timestamp := 864000000, category := Category.beer }]
          7 0).start
        ≤ (resolveWindow 0 [{ id := 1, timestamp := 864000000, category := Category.beer }]
          7 0).stop) := by
  decide

/-- C6 (amended): in day mode there is exactly one bucket per local
calendar day from `window.start` to `window.end` inclusive, in ascending
order (the label sequence is the consecutive run of local day numbers), and
bucket `k` counts exactly the events whose UTC calendar day (the ISO date
compared by the source) equals the bucket day's UTC day.  When the local
timezone is UTC this matching day coincides with the local calendar day of
the claim; in general it does not (see the counterexample). -/
theorem aggregateByDay_characterization (tz : Int) (entries : List Event)
    (startDate stop : Int) (h : startDate ≤ stop) :
    (aggregateByDay tz entries startDate stop).map Bucket.label
        = (List.range ((localDay tz stop - localDay tz startDate).toNat + 1)).map
            (fun k : Nat => localDay tz startDate + (k : Int)) ∧
    ∀ (k : Nat) (hk : k < (aggregateByDay tz entries startDate stop).length),
      (aggregateByDay tz entries startDate stop).get ⟨k, hk⟩ =
        { label := localDay tz startDate + (k : Int)
          beer := countCat .beer (entries.filter fun e =>
            utcDay e.timestamp = utcDay (dayFloor tz startDate) + (k : Int))
          wine := countCat .wine (entries.filter fun e =>
            utcDay e.timestamp = utcDay (dayFloor tz startDate) + (k : Int))
          liquor := countCat .liquor (entries.filter fun e =>
            utcDay e.timestamp = utcDay (dayFloor tz startDate) + (k : Int))
          smoking := countCat .smoking (entries.filter fun e =>
            utcDay e.timestamp = utcDay (dayFloor tz startDate) + (k : Int)) } := by
  have hn : numSteps dayMs stop (dayFloor tz startDate)
      = (localDay tz stop - localDay tz startDate).toNat + 1 := by
    unfold numSteps dayFloor localDay
    simp only [dayMs]
    split
    · omega
    · omega
  have hbody : ∀ k : Nat, dayBucket tz entries (dayFloor tz startDate + (k : Int) * dayMs)
      = { label := localDay tz startDate + (k : Int)
          beer := countCat .beer (entries.filter fun e =>
            utcDay e.timestamp = utcDay (dayFloor tz startDate) + (k : Int))
          wine := countCat .wine (entries.filter fun e =>
            utcDay e.timestamp = utcDay (dayFloor tz startDate) + (k : Int))
          liquor := countCat .liquor (entries.filter fun e =>
            utcDay e.timestamp = utcDay (dayFloor tz startDate) + (k : Int))
          smoking := countCat .smoking (entries.filter fun e =>
            utcDay e.timestamp = utcDay (dayFloor tz startDate) + (k : Int)) } := by
    intro k
    have h1 : formatChartLabel tz (dayFloor tz startDate + (k : Int) * dayMs)
        = localDay tz startDate + (k : Int) := by
      unfold formatChartLabel localDay dayFloor
      simp only [dayMs]
      omega
    have h2 : utcDay (dayFloor tz startDate + (k : Int) * dayMs)
        = utcDay (dayFloor tz startDate) + (k : Int) := by
      unfold utcDay dayFloor
      simp only [dayMs]
      omega
    simp only [dayBucket]
    rw [h1, h2]
  constructor
  · simp only [aggregateByDay]
    rw [loopFrom_eq_map, hn, List.map_map]
    refine List.map_congr_left fun k _ => ?_
    simp only [Function.comp_apply, hbody k]
  · intro k hk
    simp only [aggregateByDay, loopFrom_eq_map, List.get_eq_getElem, List.getElem_map,
      List.getElem_range]
    exact hbody k

/-- Witness for the C6 theorem at a concrete window. -/
theorem aggregateByDay_characterization_witness :
    (0 : Int) ≤ (0 : Int) ∧
    ((aggregateByDay 0 [] 0 0).map Bucket.label
        = (List.range ((localDay 0 0 - localDay 0 0).toNat + 1)).map
            (fun k : Nat => localDay 0 0 + (k : Int)) ∧
      ∀ (k : Nat) (hk : k < (aggregateByDay 0 [] 0 0).length),
        (aggregateByDay 0 [] 0 0).get ⟨k, hk⟩ =
          { label := localDay 0 0 + (k : Int)
            beer := countCat .beer (([] : List Event).filter fun e =>
              utcDay e.timestamp = utcDay (dayFloor 0 0) + (k : Int))
            wine := countCat .wine (([] : List Event).filter fun e =>
              utcDay e.timestamp = utcDay (dayFloor 0 0) + (k : Int))
            liquor := countCat .liquor (([] : List Event).filter fun e =>
              utcDay e.timestamp = utcDay (dayFloor 0 0) + (k : Int))
            smoking := countCat .smoking (([] : List Event).filter fun e =>
              utcDay e.timestamp = utcDay (dayFloor 0 0) + (k : Int)) }) :=
  ⟨le_refl 0, aggregateByDay_characterization 0 [] 0 0 (le_refl 0)⟩

/-- C6 counterexample to the claim as stated: in a UTC+2 locale, an event at
03:00 local time of local day 1 (instant 90000000) has local calendar day 1,
yet day-mode aggregation over the two-local-day window counts it in the
bucket labeled day 2, because the source matches events to buckets by the
UTC date of `toISOString`, not the local calendar day. -/
theorem aggregateByDay_matches_utc_not_local_day :
    localDay 7200000
        ({ id := 1, timestamp := 90000000, category := Category.beer } : Event).timestamp = 1 ∧
    aggregateByDay 7200000 [{ id := 1, timestamp := 90000000, category := Category.beer }]
        79200000 251999999
      = [{ label := 1, beer := 0, wine := 0, liquor := 0, smoking := 0 },
         { label := 2, beer := 1, wine := 0, liquor := 0, smoking := 0 }] := by
  decide

/-- C4: in week mode the bucket sequence starts at the local Sunday on or
before `window.start` (a day-of-week-0 instant at most `window.start`, less
than 7 days before it), steps by 7 days exactly while the bucket start is
at most `window.end`, each bucket counts exactly the events with timestamp
in `[bucketStart, bucketStart + 6 days]` (instants; the upper bound is the
midnight opening the seventh day), and each label is the short date of the
bucket's start day. -/
theorem aggregateByWeek_characterization (tz : Int) (entries : List Event)
    (startDate stop : Int) :
    getDay tz (weekAnchor tz startDate) = 0 ∧
    weekAnchor tz startDate ≤ startDate ∧
    startDate - weekAnchor tz startDate < 7 * dayMs ∧
    (∀ k : Nat, k < (aggregateByWeek tz entries startDate stop).length →
      weekAnchor tz startDate + (k : Int) * (7 * dayMs) ≤ stop) ∧
    stop < weekAnchor tz startDate
      + ((aggregateByWeek tz entries startDate stop).length : Int) * (7 * dayMs) ∧
    ∀ (k : Nat) (hk : k < (aggregateByWeek tz entries startDate stop).length),
      (aggregateByWeek tz entries startDate stop).get ⟨k, hk⟩ =
        { label := formatChartLabel tz (weekAnchor tz startDate + (k : Int) * (7 * dayMs))
          beer := countCat .beer (entries.filter fun e =>
            weekAnchor tz startDate + (k : Int) * (7 * dayMs) ≤ e.timestamp ∧
              e.timestamp ≤ weekAnchor tz startDate + (k : Int) * (7 * dayMs) + 6 * dayMs)
          wine := countCat .wine (entries.filter fun e =>
            weekAnchor tz startDate + (k : Int) * (7 * dayMs) ≤ e.timestamp ∧
              e.timestamp ≤ weekAnchor tz startDate + (k : Int) * (7 * dayMs) + 6 * dayMs)
          liquor := countCat .liquor (entries.filter fun e =>
            weekAnchor tz startDate + (k : Int) * (7 * dayMs) ≤ e.timestamp ∧
              e.timestamp ≤ weekAnchor tz startDate + (k : Int) * (7 * dayMs) + 6 * dayMs)
          smoking := countCat .smoking (entries.filter fun e =>
            weekAnchor tz startDate + (k : Int) * (7 * dayMs) ≤ e.timestamp ∧
              e.timestamp ≤ weekAnchor tz startDate + (k : Int) * (7 * dayMs) + 6 * dayMs) } := by
  have hd7 : (0 : Int) < 7 * dayMs := by norm_num [dayMs]
  have hlen : (aggregateByWeek tz entries startDate stop).length
      = numSteps (7 * dayMs) stop (weekAnchor tz startDate) := by
    simp [aggregateByWeek, loopFrom_eq_map]
  refine ⟨?_, ?_, ?_, ?_, ?_, ?_⟩
  · simp only [weekAnchor, getDay, localDay, dayFloor, dayMs]
    omega
  · simp only [weekAnchor, getDay, localDay, dayFloor, dayMs]
    omega
  · simp only [weekAnchor, getDay, localDay, dayFloor, dayMs]
    omega
  · intro k hk
    rw [hlen] at hk
    exact numSteps_le hd7 k hk
  · rw [hlen]
    exact numSteps_gt hd7
  · intro k hk
    simp only [aggregateByWeek, loopFrom_eq_map, List.get_eq_getElem, List.getElem_map,
      List.getElem_range]
    simp only [weekBucket]

/-- C5: the combined per-category counts of the buckets should equal the
per-category counts of the summary statistics over the same filtered event
set.  Week mode violates this: each week bucket only accepts timestamps up
to `bucketStart + 6 days`, the midnight that opens the last day of the
week, so an event later on that Saturday belongs to no bucket.  Concretely,
for the window [Sun day 3, end of Sat day 9] and a beer event on Saturday
day 9 at 01:00, the week buckets count zero beer while the summary counts
one. -/
theorem aggregateByWeek_drops_saturday_event :
    getDay 0 ({ id := 1, timestamp := 781200000, category := Category.beer } : Event).timestamp
      = 6 ∧
    ((aggregateByWeek 0
        (filterWindow { start := 259200000, stop := 863999999 }
          [{ id := 1, timestamp := 781200000, category := Category.beer }])
        259200000 863999999).map Bucket.beer).sum = 0 ∧
    (summaryStats (filterWindow { start := 259200000, stop := 863999999 }
        [{ id := 1, timestamp := 781200000, category := Category.beer }])).beer = 1 := by
  decide

end Tracker
